import Mathlib

/-!
Verification of `employee_payroll_runs.py` (merge-api/merge-snippets):
a shallow embedding of the payroll-run fetching and aggregation logic.

Monetary amounts are modelled with exact rational arithmetic (`ℚ`);
`datetime` values at date granularity are modelled by a `Date` record
with lexicographic comparison; the HTTP layer is modelled by the list
of successive responses the server returns to the paginated requests.
-/

/-- Calendar date (the code works with UTC datetimes at date granularity). -/
structure Date where
  year : Int
  month : Nat
  day : Nat
deriving DecidableEq

/-- Python `datetime` ordering restricted to date granularity:
lexicographic on (year, month, day). -/
def Date.ltb (a b : Date) : Bool :=
  if a.year ≠ b.year then decide (a.year < b.year)
  else if a.month ≠ b.month then decide (a.month < b.month)
  else decide (a.day < b.day)

/-- Gregorian leap-year test, as used by Python's `datetime`. -/
def isLeapYear (y : Int) : Bool :=
  y % 4 = 0 && (y % 100 ≠ 0 || y % 400 = 0)

/-- Number of days of a month, as enforced by Python's `datetime` constructor. -/
def daysInMonth (y : Int) (m : Nat) : Nat :=
  if m = 2 then (if isLeapYear y then 29 else 28)
  else if m = 4 ∨ m = 6 ∨ m = 9 ∨ m = 11 then 30
  else 31

/-- A (year, month, day) triple accepted by `datetime(year, month, day)`. -/
def Date.valid (d : Date) : Bool :=
  decide (1 ≤ d.month) && decide (d.month ≤ 12) &&
  decide (1 ≤ d.day) && decide (d.day ≤ daysInMonth d.year d.month)

/-- `datetime(y, m, d, tzinfo=timezone.utc)`: `some` on a valid triple,
`none` models the `ValueError` raised on an invalid one. -/
def mkDatetime (y : Int) (m d : Nat) : Option Date :=
  if (Date.mk y m d).valid then some (Date.mk y m d) else none

/-- `datetime(d.year - 1, d.month, d.day, tzinfo=timezone.utc)` — the
prior-fiscal-year boundary computation in `summarize_employee_payroll_runs`. -/
def lastFyDate (d : Date) : Option Date :=
  mkDatetime (d.year - 1) d.month d.day

/-- The orchestrator computes `last_fy_start` and then `last_fy_end`;
a `ValueError` in either aborts the whole call. -/
def lastFyWindow (s e : Date) : Option (Date × Date) :=
  match lastFyDate s, lastFyDate e with
  | some a, some b => some (a, b)
  | _, _ => none

/-- Zero-padded two-digit rendering used by `strftime` for month and day. -/
def pad2 (n : Nat) : String :=
  if n < 10 then "0" ++ toString n else toString n

/-- `strftime("%Y-%m-%d")` on a date. -/
def dateToIso (d : Date) : String :=
  toString d.year ++ "-" ++ pad2 d.month ++ "-" ++ pad2 d.day

/-- Association-list model of a Python `dict` (unique keys, insertion order).
`mapGet m k` is `m.get(k)`. -/
def mapGet : List (String × String) → String → Option String
  | [], _ => none
  | (k, v) :: rest, code => if k = code then some v else mapGet rest code

/-- `EarningDetail` dataclass. -/
structure EarningDetail where
  earningCode : String
  label : String
  amount : ℚ
deriving DecidableEq

/-- `FiscalYearEarnings` dataclass: the per-period accumulator. The two
dicts are modelled as association lists with unique keys in insertion order. -/
structure FiscalYearEarnings where
  year : Int
  netPay : ℚ
  totalGrossEarnings : ℚ
  earningsByType : List (String × EarningDetail)
  earningsByCategory : List (String × ℚ)
deriving DecidableEq

/-- `FiscalYearResult` dataclass (serialized output of one period). -/
structure FiscalYearResult where
  startDate : String
  endDate : String
  year : Int
  netPay : ℚ
  totalGrossEarnings : ℚ
  earningsByType : List (String × EarningDetail)
  earningsByCategory : List (String × ℚ)
deriving DecidableEq

/-- `SummaryResult` dataclass. -/
structure SummaryResult where
  currentFy : FiscalYearResult
  lastFy : FiscalYearResult
deriving DecidableEq

/-- One element of a record's `earnings` list: `earning.get("type", "")`
is modelled by the `type` field directly (absent field = `""`), and
`earning.get("amount")` by an optional rational. -/
structure Earning where
  type : String
  amount : Option ℚ
deriving DecidableEq

/-- One payroll-run record of a page. `checkDate` models
`run.get("check_date")` followed by ISO-8601 parsing: `none` when the field
is absent or empty (falsy), `some none` when present but unparsable
(`ValueError`/`AttributeError`), `some (some d)` when it parses to `d`. -/
structure PayrollRun where
  checkDate : Option (Option Date)
  netPay : Option ℚ
  earnings : List Earning
deriving DecidableEq

/-- One HTTP response of the paginated endpoint: status code, body text,
`data.get("results", [])` and `data.get("next")`. -/
structure HttpResponse where
  statusCode : Nat
  text : String
  results : List PayrollRun
  next : Option String
deriving DecidableEq

/-- Python truthiness of the `next` cursor: `None` and `""` are falsy. -/
def httpTruthy : Option String → Bool
  | none => false
  | some s => s ≠ ""

/-- `dict[cat] = dict.get(cat, 0.0) + amount` pattern on the category dict:
add to the existing entry, or append a fresh entry at the end. -/
def addToMap : List (String × ℚ) → String → ℚ → List (String × ℚ)
  | [], k, a => [(k, a)]
  | (k, v) :: rest, code, a =>
    if k = code then (k, v + a) :: rest
    else (k, v) :: addToMap rest code a

/-- The `earnings_by_type` update: create the `EarningDetail` on first
sight (with the label resolved at that moment) and add the amount; an
existing entry keeps its original label. -/
def addEarningDetail : List (String × EarningDetail) → String → String → ℚ →
    List (String × EarningDetail)
  | [], code, label, a => [(code, EarningDetail.mk code label a)]
  | (k, d) :: rest, code, label, a =>
    if k = code then (k, { d with amount := d.amount + a }) :: rest
    else (k, d) :: addEarningDetail rest code label a

/-- `category_map.get(code, category_map.get("Other Allowances or Earnings",
"Other Allowances"))`. -/
def categoryFor (cm : List (String × String)) (code : String) : String :=
  (mapGet cm code).getD ((mapGet cm "Other Allowances or Earnings").getD "Other Allowances")

/-- Processing of one element of a record's `earnings` list: skip when the
amount is `None` or `0`; otherwise accumulate into the gross total, the
per-code detail and the per-category total. -/
def processEarning (em cm : List (String × String)) (st : FiscalYearEarnings)
    (e : Earning) : FiscalYearEarnings :=
  match e.amount with
  | none => st
  | some a =>
    if a = 0 then st
    else
      { st with
        totalGrossEarnings := st.totalGrossEarnings + a,
        earningsByType :=
          addEarningDetail st.earningsByType e.type ((mapGet em e.type).getD e.type) a,
        earningsByCategory := addToMap st.earningsByCategory (categoryFor cm e.type) a }

/-- The in-memory check-date filter: with filtering on, a record survives
only when its check date parsed and `start ≤ d ≤ end`; with filtering off
every record survives. -/
def keepRecord (filt : Bool) (s e : Date) (run : PayrollRun) : Bool :=
  if filt then
    match run.checkDate with
    | some (some d) => !(Date.ltb d s || Date.ltb e d)
    | _ => false
  else true

/-- Body of the per-record loop after the filter: add `net_pay` when present,
then fold the `earnings` list. -/
def processKeptRun (em cm : List (String × String)) (st : FiscalYearEarnings)
    (run : PayrollRun) : FiscalYearEarnings :=
  run.earnings.foldl (processEarning em cm)
    (match run.netPay with
     | some np => { st with netPay := st.netPay + np }
     | none => st)

/-- One iteration of `for run in results`: the `continue` of the check-date
filter skips the record before any accumulation. -/
def processRun (em cm : List (String × String)) (filt : Bool) (s e : Date)
    (st : FiscalYearEarnings) (run : PayrollRun) : FiscalYearEarnings :=
  if keepRecord filt s e run then processKeptRun em cm st run else st

/-- Processing of one page's `results` list. -/
def processResults (em cm : List (String × String)) (filt : Bool) (s e : Date)
    (st : FiscalYearEarnings) (runs : List PayrollRun) : FiscalYearEarnings :=
  runs.foldl (processRun em cm filt s e) st

/-- The `while True` pagination loop of `_fetch_payroll_runs_for_period`,
driven by the list of successive responses the server returns. A non-200
status raises (status code, body); otherwise the page is folded in and the
loop continues exactly when the `next` cursor is truthy. The second
component of the result counts the requests issued. -/
def fetchGo (em cm : List (String × String)) (filt : Bool) (s e : Date) :
    List HttpResponse → FiscalYearEarnings →
    Except (Nat × String) (FiscalYearEarnings × Nat)
  | [], st => Except.ok (st, 0)
  | r :: rest, st =>
    if r.statusCode ≠ 200 then Except.error (r.statusCode, r.text)
    else
      if httpTruthy r.next then
        match fetchGo em cm filt s e rest (processResults em cm filt s e st r.results) with
        | Except.error err => Except.error err
        | Except.ok (stf, n) => Except.ok (stf, n + 1)
      else Except.ok (processResults em cm filt s e st r.results, 1)

/-- The empty accumulator `FiscalYearEarnings(year=year, ...)`. -/
def initFYE (year : Int) : FiscalYearEarnings :=
  FiscalYearEarnings.mk year 0 0 [] []

/-- `_fetch_payroll_runs_for_period`: run the pagination loop from the
empty accumulator for the given year label. -/
def fetchPayrollRunsForPeriod (em cm : List (String × String)) (filt : Bool)
    (s e : Date) (year : Int) (rs : List HttpResponse) :
    Except (Nat × String) (FiscalYearEarnings × Nat) :=
  fetchGo em cm filt s e rs (initFYE year)

/-- Content found at a candidate path: a well-formed JSON object
(string-to-string mapping) or a malformed document. -/
inductive FileContent where
  | mapping (m : List (String × String))
  | malformed
deriving DecidableEq

/-- The four candidate locations tried by `_load_mapping_file`, in order. -/
def candidatePaths (cwd moduleDir filename : String) : List String :=
  [cwd ++ "/" ++ filename,
   cwd ++ "/payroll/" ++ filename,
   moduleDir ++ "/" ++ filename,
   moduleDir ++ "/payroll/" ++ filename]

/-- The `for path in possible_paths` loop: parse the first existing
candidate; malformed JSON raises; no existing candidate yields `{}`. -/
def loadMappingGo (fs : String → Option FileContent) :
    List String → Except String (List (String × String))
  | [] => Except.ok []
  | p :: rest =>
    match fs p with
    | none => loadMappingGo fs rest
    | some (FileContent.mapping m) => Except.ok m
    | some FileContent.malformed => Except.error "JSONDecodeError"

/-- `_load_mapping_file` over an abstract file system `fs`
(`fs p = none` means `path.exists()` is false). -/
def loadMappingFile (fs : String → Option FileContent)
    (cwd moduleDir filename : String) : Except String (List (String × String)) :=
  loadMappingGo fs (candidatePaths cwd moduleDir filename)

/-- `summarize_employee_payroll_runs` with an explicit current window:
compute the prior window, run both period fetches, and assemble the
`SummaryResult`. The two response lists stand for the pages served to the
current-year and prior-year fetches. -/
def summarizeEmployeePayrollRuns (em cm : List (String × String)) (filt : Bool)
    (thisFyStart thisFyEnd : Date) (rsThis rsLast : List HttpResponse) :
    Except String SummaryResult :=
  match lastFyWindow thisFyStart thisFyEnd with
  | none => Except.error "ValueError: day is out of range for month"
  | some (lastFyStart, lastFyEnd) =>
    match fetchPayrollRunsForPeriod em cm filt thisFyStart thisFyEnd
        thisFyEnd.year rsThis with
    | Except.error err => Except.error ("Merge API error " ++ toString err.1 ++ ": " ++ err.2)
    | Except.ok (thisData, _) =>
      match fetchPayrollRunsForPeriod em cm filt lastFyStart lastFyEnd
          lastFyEnd.year rsLast with
      | Except.error err => Except.error ("Merge API error " ++ toString err.1 ++ ": " ++ err.2)
      | Except.ok (lastData, _) =>
        Except.ok (SummaryResult.mk
          (FiscalYearResult.mk (dateToIso thisFyStart) (dateToIso thisFyEnd)
            thisData.year thisData.netPay thisData.totalGrossEarnings
            thisData.earningsByType thisData.earningsByCategory)
          (FiscalYearResult.mk (dateToIso lastFyStart) (dateToIso lastFyEnd)
            lastData.year lastData.netPay lastData.totalGrossEarnings
            lastData.earningsByType lastData.earningsByCategory))

/-- Sum of the accumulated per-code amounts. -/
def sumByType (m : List (String × EarningDetail)) : ℚ :=
  (m.map (fun p => p.2.amount)).sum

/-- Sum of the accumulated per-category amounts. -/
def sumByCategory (m : List (String × ℚ)) : ℚ :=
  (m.map (fun p => p.2)).sum

/-- Sum of the present net-pay fields of the records surviving the filter. -/
def survivingNetPaySum (filt : Bool) (s e : Date) (runs : List PayrollRun) : ℚ :=
  ((runs.filter (keepRecord filt s e)).map (fun r => r.netPay.getD 0)).sum

/-- The three-way cross-check invariant of a `FiscalYearEarnings`. -/
def crosscheck (st : FiscalYearEarnings) : Prop :=
  st.totalGrossEarnings = sumByType st.earningsByType ∧
  sumByType st.earningsByType = sumByCategory st.earningsByCategory

/-- Concrete single-page response sequence used to instantiate the
cross-check invariant: two records, earning codes REG (1000 + 500),
OT (200), a null amount and a zero amount. -/
def c1Responses : List HttpResponse :=
  [HttpResponse.mk 200 ""
    [PayrollRun.mk none (some 800) [Earning.mk "REG" (some 1000)],
     PayrollRun.mk none none
       [Earning.mk "REG" (some 500), Earning.mk "OT" (some 200),
        Earning.mk "BONUS" none, Earning.mk "ZERO" (some 0)]]
    none]

/-- The accumulator produced by fetching `c1Responses`. -/
def c1Stf : FiscalYearEarnings :=
  FiscalYearEarnings.mk 2024 800 1700
    [("REG", EarningDetail.mk "REG" "Regular" 1500),
     ("OT", EarningDetail.mk "OT" "Overtime" 200)]
    [("Base", 1500), ("Overtime", 200)]

/-- Three-page mock sequence with 5, 5 and 3 records; every record carries
a net pay of 1, so a resulting net-pay total of 13 certifies that all 13
records were folded in. -/
def c6Pages : List HttpResponse :=
  [HttpResponse.mk 200 "" (List.replicate 5 (PayrollRun.mk none (some 1) [])) (some "cursor2"),
   HttpResponse.mk 200 "" (List.replicate 5 (PayrollRun.mk none (some 1) [])) (some "cursor3"),
   HttpResponse.mk 200 "" (List.replicate 3 (PayrollRun.mk none (some 1) [])) none]

/-- The accumulator produced by fetching `c6Pages`. -/
def c6Stf : FiscalYearEarnings :=
  FiscalYearEarnings.mk 2024 13 0 [] []

/-- The summary returned for the window 2016-07-01..2017-06-30 with one
empty 200 page per period: the year labels are those of the end dates. -/
def c10Res : SummaryResult :=
  SummaryResult.mk
    (FiscalYearResult.mk "2016-07-01" "2017-06-30" 2017 0 0 [] [])
    (FiscalYearResult.mk "2015-07-01" "2016-06-30" 2016 0 0 [] [])

/- ### Helper lemmas -/

theorem sumByCategory_cons (k : String) (v : ℚ) (rest : List (String × ℚ)) :
    sumByCategory ((k, v) :: rest) = v + sumByCategory rest := by
  simp [sumByCategory]

theorem sumByType_cons (k : String) (d : EarningDetail)
    (rest : List (String × EarningDetail)) :
    sumByType ((k, d) :: rest) = d.amount + sumByType rest := by
  simp [sumByType]

theorem addToMap_sum (m : List (String × ℚ)) (k : String) (a : ℚ) :
    sumByCategory (addToMap m k a) = sumByCategory m + a := by
  induction m with
  | nil => simp [addToMap, sumByCategory]
  | cons p rest ih =>
    obtain ⟨k1, v⟩ := p
    simp only [addToMap]
    by_cases h : k1 = k
    · subst h
      rw [if_pos rfl, sumByCategory_cons, sumByCategory_cons]
      ring
    · rw [if_neg h, sumByCategory_cons, sumByCategory_cons, ih]
      ring

theorem addEarningDetail_sum (m : List (String × EarningDetail))
    (code label : String) (a : ℚ) :
    sumByType (addEarningDetail m code label a) = sumByType m + a := by
  induction m with
  | nil => simp [addEarningDetail, sumByType]
  | cons p rest ih =>
    obtain ⟨k1, d⟩ := p
    simp only [addEarningDetail]
    by_cases h : k1 = code
    · subst h
      rw [if_pos rfl]
      simp only [sumByType_cons]
      ring
    · rw [if_neg h, sumByType_cons, sumByType_cons, ih]
      ring

theorem foldl_preserve {α β : Type} {P : α → Prop} {f : α → β → α}
    (h : ∀ s b, P s → P (f s b)) :
    ∀ (l : List β) (s : α), P s → P (l.foldl f s) := by
  intro l
  induction l with
  | nil => intro s hs; exact hs
  | cons b rest ih => intro s hs; exact ih _ (h s b hs)

theorem processEarning_crosscheck (em cm : List (String × String))
    (st : FiscalYearEarnings) (e : Earning) (h : crosscheck st) :
    crosscheck (processEarning em cm st e) := by
  obtain ⟨h1, h2⟩ := h
  cases he : e.amount with
  | none =>
    simp only [processEarning, he]
    exact ⟨h1, h2⟩
  | some a =>
    by_cases ha : a = 0
    · simp [processEarning, he, ha]
      exact ⟨h1, h2⟩
    · simp only [processEarning, he, if_neg ha, crosscheck]
      refine ⟨?_, ?_⟩
      · simp only [addEarningDetail_sum]
        rw [h1]
      · simp only [addEarningDetail_sum, addToMap_sum]
        rw [h2]

theorem processKeptRun_crosscheck (em cm : List (String × String))
    (st : FiscalYearEarnings) (run : PayrollRun) (h : crosscheck st) :
    crosscheck (processKeptRun em cm st run) := by
  unfold processKeptRun
  refine foldl_preserve (fun s b hs => processEarning_crosscheck em cm s b hs) _ _ ?_
  cases run.netPay with
  | none => exact h
  | some np => exact h

theorem processRun_crosscheck (em cm : List (String × String)) (filt : Bool)
    (s e : Date) (st : FiscalYearEarnings) (run : PayrollRun) (h : crosscheck st) :
    crosscheck (processRun em cm filt s e st run) := by
  unfold processRun
  by_cases hk : keepRecord filt s e run
  · rw [if_pos hk]
    exact processKeptRun_crosscheck em cm st run h
  · rw [if_neg hk]
    exact h

theorem processResults_crosscheck (em cm : List (String × String)) (filt : Bool)
    (s e : Date) (st : FiscalYearEarnings) (runs : List PayrollRun)
    (h : crosscheck st) : crosscheck (processResults em cm filt s e st runs) := by
  unfold processResults
  exact foldl_preserve (fun s1 b hs => processRun_crosscheck em cm filt s e s1 b hs) _ _ h

theorem fetchGo_ok_crosscheck (em cm : List (String × String)) (filt : Bool)
    (s e : Date) :
    ∀ (rs : List HttpResponse) (st stf : FiscalYearEarnings) (n : Nat),
      fetchGo em cm filt s e rs st = Except.ok (stf, n) → crosscheck st →
      crosscheck stf := by
  intro rs
  induction rs with
  | nil =>
    intro st stf n h hc
    simp only [fetchGo, Except.ok.injEq, Prod.mk.injEq] at h
    rw [← h.1]
    exact hc
  | cons r rest ih =>
    intro st stf n h hc
    simp only [fetchGo] at h
    by_cases hs : r.statusCode ≠ 200
    · rw [if_pos hs] at h
      exact absurd h (by simp)
    · rw [if_neg hs] at h
      by_cases ht : httpTruthy r.next
      · rw [if_pos ht] at h
        cases hrec : fetchGo em cm filt s e rest
            (processResults em cm filt s e st r.results) with
        | error err => rw [hrec] at h; exact absurd h (by simp)
        | ok v =>
          obtain ⟨st1, n1⟩ := v
          rw [hrec] at h
          simp only [Except.ok.injEq, Prod.mk.injEq] at h
          rw [← h.1]
          exact ih _ _ _ hrec
            (processResults_crosscheck em cm filt s e st r.results hc)
      · rw [if_neg ht] at h
        simp only [Except.ok.injEq, Prod.mk.injEq] at h
        rw [← h.1]
        exact processResults_crosscheck em cm filt s e st r.results hc

/- ### Claim theorems -/

/-- Claim C1: for every sequence of pages processed by a period fetch, the
returned `FiscalYearEarnings` satisfies `total_gross_earnings` = sum of the
amounts of all `earnings_by_type` entries = sum of all `earnings_by_category`
values (three-way cross-check). -/
theorem c1_three_way_crosscheck (em cm : List (String × String)) (filt : Bool)
    (s e : Date) (year : Int) (rs : List HttpResponse)
    (stf : FiscalYearEarnings) (n : Nat)
    (h : fetchPayrollRunsForPeriod em cm filt s e year rs = Except.ok (stf, n)) :
    stf.totalGrossEarnings = sumByType stf.earningsByType ∧
    sumByType stf.earningsByType = sumByCategory stf.earningsByCategory :=
  fetchGo_ok_crosscheck em cm filt s e rs (initFYE year) stf n h ⟨rfl, rfl⟩

/-- Witness for C1 on a concrete one-page fetch. -/
theorem c1_three_way_crosscheck_witness :
    c1Stf.totalGrossEarnings = sumByType c1Stf.earningsByType ∧
    sumByType c1Stf.earningsByType = sumByCategory c1Stf.earningsByCategory :=
  c1_three_way_crosscheck
    [("REG", "Regular"), ("OT", "Overtime")]
    [("REG", "Base"), ("OT", "Overtime")]
    false (Date.mk 2024 1 1) (Date.mk 2024 12 31) 2024
    c1Responses c1Stf 1 (by with_unfolding_all rfl)

/-- Claim C7: an accepted earning amount is accumulated under the category
resolved by the fallback chain: the mapping entry for the code when present,
otherwise the mapping entry for the literal key "Other Allowances or
Earnings" when present, otherwise the literal string "Other Allowances". -/
theorem c7_category_fallback_chain (em cm : List (String × String))
    (code : String) (st : FiscalYearEarnings) (e : Earning) (a : ℚ) :
    (∀ c, mapGet cm code = some c → categoryFor cm code = c) ∧
    (mapGet cm code = none →
      ∀ c, mapGet cm "Other Allowances or Earnings" = some c →
        categoryFor cm code = c) ∧
    (mapGet cm code = none →
      mapGet cm "Other Allowances or Earnings" = none →
        categoryFor cm code = "Other Allowances") ∧
    (e.amount = some a → a ≠ 0 →
      (processEarning em cm st e).earningsByCategory =
        addToMap st.earningsByCategory (categoryFor cm e.type) a) := by
  refine ⟨?_, ?_, ?_, ?_⟩
  · intro c hc
    simp [categoryFor, hc]
  · intro h0 c hc
    simp [categoryFor, h0, hc]
  · intro h0 h1
    simp [categoryFor, h0, h1]
  · intro ha hz
    simp only [processEarning, ha, if_neg hz]

/-- Witness for C7 exercising all three fallback cases and the
accumulation, on concrete mappings. -/
theorem c7_category_fallback_chain_witness :
    categoryFor [("REG", "Base")] "REG" = "Base" ∧
    categoryFor [("Other Allowances or Earnings", "Misc")] "OT" = "Misc" ∧
    categoryFor [("REG", "Base")] "OT" = "Other Allowances" ∧
    (processEarning [] [("REG", "Base")] (initFYE 1)
        (Earning.mk "REG" (some 7))).earningsByCategory =
      addToMap (initFYE 1).earningsByCategory
        (categoryFor [("REG", "Base")] "REG") 7 := by
  refine ⟨?_, ?_, ?_, ?_⟩
  · exact (c7_category_fallback_chain [] [("REG", "Base")] "REG" (initFYE 1)
      (Earning.mk "REG" (some 7)) 7).1 "Base" (by rfl)
  · exact (c7_category_fallback_chain [] [("Other Allowances or Earnings", "Misc")]
      "OT" (initFYE 1) (Earning.mk "OT" (some 7)) 7).2.1 (by rfl) "Misc" (by rfl)
  · exact (c7_category_fallback_chain [] [("REG", "Base")] "OT" (initFYE 1)
      (Earning.mk "OT" (some 7)) 7).2.2.1 (by rfl) (by rfl)
  · exact (c7_category_fallback_chain [] [("REG", "Base")] "REG" (initFYE 1)
      (Earning.mk "REG" (some 7)) 7).2.2.2 rfl (by norm_num)

/-- Claim C8: an earning line whose amount is null or zero leaves the whole
accumulator unchanged: no total, per-code entry or per-category entry is
touched or created. -/
theorem c8_zero_null_amount_no_effect (em cm : List (String × String))
    (st : FiscalYearEarnings) (e : Earning)
    (h : e.amount = none ∨ e.amount = some 0) :
    processEarning em cm st e = st := by
  rcases h with h | h <;> simp [processEarning, h]

/-- Witness for C8 at a zero-amount earning line. -/
theorem c8_zero_null_amount_no_effect_witness :
    processEarning [] [] (initFYE 5) (Earning.mk "REG" (some 0)) = initFYE 5 :=
  c8_zero_null_amount_no_effect [] [] (initFYE 5) (Earning.mk "REG" (some 0))
    (Or.inr rfl)

/-- `processEarning` never touches the net-pay total. -/
theorem processEarning_netPay (em cm : List (String × String))
    (st : FiscalYearEarnings) (e : Earning) :
    (processEarning em cm st e).netPay = st.netPay := by
  cases he : e.amount with
  | none => simp [processEarning, he]
  | some a => by_cases ha : a = 0 <;> simp [processEarning, he, ha]

/-- Folding a record's earnings list never touches the net-pay total. -/
theorem foldl_processEarning_netPay (em cm : List (String × String))
    (es : List Earning) (st : FiscalYearEarnings) :
    (es.foldl (processEarning em cm) st).netPay = st.netPay :=
  @foldl_preserve FiscalYearEarnings Earning (fun s1 => s1.netPay = st.netPay)
    (processEarning em cm)
    (fun s1 b hs => by
      show (processEarning em cm s1 b).netPay = st.netPay
      rw [processEarning_netPay]
      exact hs) es st rfl

/-- Net pay after one surviving record: the old total plus the record's
present net-pay field (or nothing when the field is absent). -/
theorem processKeptRun_netPay (em cm : List (String × String))
    (st : FiscalYearEarnings) (run : PayrollRun) :
    (processKeptRun em cm st run).netPay = st.netPay + run.netPay.getD 0 := by
  cases hnp : run.netPay with
  | none =>
    simp only [processKeptRun, hnp, foldl_processEarning_netPay, Option.getD_none]
    ring
  | some np =>
    simp only [processKeptRun, hnp, foldl_processEarning_netPay, Option.getD_some]

/-- Net pay after one record of the page loop. -/
theorem processRun_netPay (em cm : List (String × String)) (filt : Bool)
    (s e : Date) (st : FiscalYearEarnings) (run : PayrollRun) :
    (processRun em cm filt s e st run).netPay =
      st.netPay + (if keepRecord filt s e run then run.netPay.getD 0 else 0) := by
  unfold processRun
  by_cases hk : keepRecord filt s e run
  · rw [if_pos hk, if_pos hk, processKeptRun_netPay]
  · rw [if_neg hk, if_neg hk]
    ring

theorem survivingNetPaySum_cons (filt : Bool) (s e : Date) (run : PayrollRun)
    (rest : List PayrollRun) :
    survivingNetPaySum filt s e (run :: rest) =
      (if keepRecord filt s e run then run.netPay.getD 0 else 0) +
        survivingNetPaySum filt s e rest := by
  by_cases hk : keepRecord filt s e run <;> simp [survivingNetPaySum, hk]

/-- Claim C3: with check-date filtering on, a record is excluded (leaves the
accumulator untouched) when its check-date field is absent, unparsable, or
strictly outside the window; a record dated exactly at the start or at the
end of a nonempty window is included. Exclusion is a per-record skip, never
an error: `processRun` is total. -/
theorem c3_check_date_filtering (em cm : List (String × String)) (s e d : Date)
    (st : FiscalYearEarnings) (run : PayrollRun) :
    (run.checkDate = none → processRun em cm true s e st run = st) ∧
    (run.checkDate = some none → processRun em cm true s e st run = st) ∧
    (run.checkDate = some (some d) → Date.ltb d s = true →
      processRun em cm true s e st run = st) ∧
    (run.checkDate = some (some d) → Date.ltb e d = true →
      processRun em cm true s e st run = st) ∧
    (run.checkDate = some (some s) → Date.ltb e s = false →
      keepRecord true s e run = true ∧
      processRun em cm true s e st run = processKeptRun em cm st run) ∧
    (run.checkDate = some (some e) → Date.ltb e s = false →
      keepRecord true s e run = true ∧
      processRun em cm true s e st run = processKeptRun em cm st run) := by
  have hirr : ∀ a : Date, Date.ltb a a = false := by
    intro a
    simp [Date.ltb]
  refine ⟨?_, ?_, ?_, ?_, ?_, ?_⟩
  · intro h
    simp [processRun, keepRecord, h]
  · intro h
    simp [processRun, keepRecord, h]
  · intro h hlt
    simp [processRun, keepRecord, h, hlt]
  · intro h hlt
    simp [processRun, keepRecord, h, hlt]
  · intro h hle
    have hk : keepRecord true s e run = true := by
      simp [keepRecord, h, hirr s, hle]
    exact ⟨hk, by simp [processRun, hk]⟩
  · intro h hle
    have hk : keepRecord true s e run = true := by
      simp [keepRecord, h, hirr e, hle]
    exact ⟨hk, by simp [processRun, hk]⟩

/-- Witness for C3: concrete window 2024-01-01..2024-12-31, one record per
case (absent, unparsable, one day before the start, one day after the end,
exactly at the start, exactly at the end). -/
theorem c3_check_date_filtering_witness :
    processRun [] [] true (Date.mk 2024 1 1) (Date.mk 2024 12 31) (initFYE 7)
        (PayrollRun.mk none (some 5) []) = initFYE 7 ∧
    processRun [] [] true (Date.mk 2024 1 1) (Date.mk 2024 12 31) (initFYE 7)
        (PayrollRun.mk (some none) (some 5) []) = initFYE 7 ∧
    processRun [] [] true (Date.mk 2024 1 1) (Date.mk 2024 12 31) (initFYE 7)
        (PayrollRun.mk (some (some (Date.mk 2023 12 31))) (some 5) []) = initFYE 7 ∧
    processRun [] [] true (Date.mk 2024 1 1) (Date.mk 2024 12 31) (initFYE 7)
        (PayrollRun.mk (some (some (Date.mk 2025 1 1))) (some 5) []) = initFYE 7 ∧
    keepRecord true (Date.mk 2024 1 1) (Date.mk 2024 12 31)
        (PayrollRun.mk (some (some (Date.mk 2024 1 1))) (some 5) []) = true ∧
    keepRecord true (Date.mk 2024 1 1) (Date.mk 2024 12 31)
        (PayrollRun.mk (some (some (Date.mk 2024 12 31))) (some 5) []) = true := by
  refine ⟨?_, ?_, ?_, ?_, ?_, ?_⟩
  · exact (c3_check_date_filtering [] [] (Date.mk 2024 1 1) (Date.mk 2024 12 31)
      (Date.mk 2024 1 1) (initFYE 7) (PayrollRun.mk none (some 5) [])).1 rfl
  · exact (c3_check_date_filtering [] [] (Date.mk 2024 1 1) (Date.mk 2024 12 31)
      (Date.mk 2024 1 1) (initFYE 7) (PayrollRun.mk (some none) (some 5) [])).2.1 rfl
  · exact (c3_check_date_filtering [] [] (Date.mk 2024 1 1) (Date.mk 2024 12 31)
      (Date.mk 2023 12 31) (initFYE 7)
      (PayrollRun.mk (some (some (Date.mk 2023 12 31))) (some 5) [])).2.2.1 rfl
      (by decide)
  · exact (c3_check_date_filtering [] [] (Date.mk 2024 1 1) (Date.mk 2024 12 31)
      (Date.mk 2025 1 1) (initFYE 7)
      (PayrollRun.mk (some (some (Date.mk 2025 1 1))) (some 5) [])).2.2.2.1 rfl
      (by decide)
  · exact ((c3_check_date_filtering [] [] (Date.mk 2024 1 1) (Date.mk 2024 12 31)
      (Date.mk 2024 1 1) (initFYE 7)
      (PayrollRun.mk (some (some (Date.mk 2024 1 1))) (some 5) [])).2.2.2.2.1 rfl
      (by decide)).1
  · exact ((c3_check_date_filtering [] [] (Date.mk 2024 1 1) (Date.mk 2024 12 31)
      (Date.mk 2024 1 1) (initFYE 7)
      (PayrollRun.mk (some (some (Date.mk 2024 12 31))) (some 5) [])).2.2.2.2.2 rfl
      (by decide)).1

/-- Claim C4: with check-date filtering on, the net-pay total of a processed
page equals the previous total plus the present net-pay fields of exactly
the records surviving the filter; excluded records contribute nothing. -/
theorem c4_net_pay_only_surviving (em cm : List (String × String)) (s e : Date)
    (st : FiscalYearEarnings) (runs : List PayrollRun) :
    (processResults em cm true s e st runs).netPay =
      st.netPay + survivingNetPaySum true s e runs := by
  induction runs generalizing st with
  | nil => simp [processResults, survivingNetPaySum]
  | cons run rest ih =>
    show (processResults em cm true s e (processRun em cm true s e st run) rest).netPay = _
    rw [ih, survivingNetPaySum_cons, processRun_netPay]
    ring

/-- Counterexample to claim C5 as stated: a 201 response is a 2xx success,
yet the fetch raises the error (201, body) instead of proceeding, because
the code tests `status_code != 200`, not membership in the 2xx class. -/
theorem c5_error_iff_non_200_counterexample :
    fetchGo [] [] false (Date.mk 2024 1 1) (Date.mk 2024 12 31)
        [HttpResponse.mk 201 "created" [] none] (initFYE 2024) =
      Except.error (201, "created") ∧ 200 ≤ 201 ∧ 201 < 300 :=
  ⟨by rfl, by decide, by decide⟩

/-- Claim C5 (amended): a period fetch raises an error carrying the
response's status code and body if and only if a paginated request returns
a response with status code different from 200 (which includes 2xx codes
other than 200); while every response has status 200 the fetch proceeds and
never returns an error. -/
theorem c5_error_iff_non_200 (em cm : List (String × String)) (filt : Bool)
    (s e : Date) :
    (∀ (r : HttpResponse) (rest : List HttpResponse) (st : FiscalYearEarnings),
      r.statusCode ≠ 200 →
        fetchGo em cm filt s e (r :: rest) st =
          Except.error (r.statusCode, r.text)) ∧
    (∀ (rs : List HttpResponse) (st : FiscalYearEarnings),
      (∀ r ∈ rs, r.statusCode = 200) →
        ∀ err : Nat × String, fetchGo em cm filt s e rs st ≠ Except.error err) := by
  constructor
  · intro r rest st h
    simp [fetchGo, h]
  · intro rs
    induction rs with
    | nil =>
      intro st h err
      simp [fetchGo]
    | cons r rest ih =>
      intro st h err
      have h200 : ¬r.statusCode ≠ 200 := by
        simp [h r (List.mem_cons_self r rest)]
      have hrest : ∀ x ∈ rest, x.statusCode = 200 :=
        fun x hx => h x (List.mem_cons_of_mem r hx)
      simp only [fetchGo, if_neg h200]
      by_cases ht : httpTruthy r.next
      · rw [if_pos ht]
        cases hrec : fetchGo em cm filt s e rest
            (processResults em cm filt s e st r.results) with
        | error err2 => exact absurd hrec (ih _ hrest err2)
        | ok v =>
          obtain ⟨v1, v2⟩ := v
          simp
      · rw [if_neg ht]
        simp

/-- Witness for C5 (amended) on concrete responses: a 500 response aborts
with (500, body); an all-200 sequence does not produce that error. -/
theorem c5_error_iff_non_200_witness :
    fetchGo [] [] false (Date.mk 2024 1 1) (Date.mk 2024 12 31)
        [HttpResponse.mk 500 "boom" [] none] (initFYE 2024) =
      Except.error (500, "boom") ∧
    fetchGo [] [] false (Date.mk 2024 1 1) (Date.mk 2024 12 31)
        [HttpResponse.mk 200 "" [] none] (initFYE 2024) ≠
      Except.error (500, "boom") := by
  constructor
  · exact (c5_error_iff_non_200 [] [] false (Date.mk 2024 1 1)
      (Date.mk 2024 12 31)).1 (HttpResponse.mk 500 "boom" [] none) []
      (initFYE 2024) (by decide)
  · exact (c5_error_iff_non_200 [] [] false (Date.mk 2024 1 1)
      (Date.mk 2024 12 31)).2 [HttpResponse.mk 200 "" [] none]
      (initFYE 2024) (by decide) (500, "boom")

/-- Counterexample to claim C6 as stated: a page whose `next` field is the
empty string — present and non-null — still stops the loop, because the
code tests Python truthiness (`if not cursor`). Only the first page's
record is folded in (net pay 1, not 2) and exactly one request is issued. -/
theorem c6_pagination_counterexample :
    httpTruthy (some "") = false ∧
    fetchGo [] [] false (Date.mk 2024 1 1) (Date.mk 2024 12 31)
        [HttpResponse.mk 200 "" [PayrollRun.mk none (some 1) []] (some ""),
         HttpResponse.mk 200 "" [PayrollRun.mk none (some 1) []] none]
        (initFYE 2024) =
      Except.ok (FiscalYearEarnings.mk 2024 1 0 [] [], 1) :=
  ⟨rfl, by with_unfolding_all rfl⟩

/-- Claim C6 (amended): the fetch loop requests another page exactly while
the current page's next cursor is truthy (non-null, present and non-empty),
and stops on the first page whose next field is null, absent or empty; on
the concrete 3-page sequence of 5, 5 and 3 unit-net-pay records, exactly 3
requests are issued and all 13 records are folded in (net pay 13). -/
theorem c6_pagination (em cm : List (String × String)) (filt : Bool)
    (s e : Date) :
    (∀ (r : HttpResponse) (rest : List HttpResponse) (st : FiscalYearEarnings),
      r.statusCode = 200 → httpTruthy r.next = false →
        fetchGo em cm filt s e (r :: rest) st =
          Except.ok (processResults em cm filt s e st r.results, 1)) ∧
    (∀ (r : HttpResponse) (rest : List HttpResponse) (st : FiscalYearEarnings),
      r.statusCode = 200 → httpTruthy r.next = true →
        fetchGo em cm filt s e (r :: rest) st =
          Except.map (fun p => (p.1, p.2 + 1))
            (fetchGo em cm filt s e rest
              (processResults em cm filt s e st r.results))) ∧
    (fetchGo [] [] false (Date.mk 2024 1 1) (Date.mk 2024 12 31) c6Pages
        (initFYE 2024) = Except.ok (c6Stf, 3) ∧ c6Stf.netPay = 13) := by
  refine ⟨?_, ?_, ?_, ?_⟩
  · intro r rest st h200 ht
    have h200n : ¬r.statusCode ≠ 200 := by simp [h200]
    simp only [fetchGo, if_neg h200n, ht, if_neg (Bool.false_ne_true)]
  · intro r rest st h200 ht
    have h200n : ¬r.statusCode ≠ 200 := by simp [h200]
    simp only [fetchGo, if_neg h200n, ht, if_pos rfl]
    cases fetchGo em cm filt s e rest
        (processResults em cm filt s e st r.results) with
    | error err => rfl
    | ok v =>
      obtain ⟨v1, v2⟩ := v
      rfl
  · with_unfolding_all rfl
  · rfl

/-- Witness for C6 (amended): a 200 page with falsy cursor stops after one
request; a 200 page with a truthy cursor issues the next request. -/
theorem c6_pagination_witness :
    fetchGo [] [] false (Date.mk 2024 1 1) (Date.mk 2024 12 31)
        [HttpResponse.mk 200 "" [] none] (initFYE 2024) =
      Except.ok (processResults [] [] false (Date.mk 2024 1 1)
        (Date.mk 2024 12 31) (initFYE 2024) [], 1) ∧
    fetchGo [] [] false (Date.mk 2024 1 1) (Date.mk 2024 12 31)
        [HttpResponse.mk 200 "" [] (some "c2"), HttpResponse.mk 200 "" [] none]
        (initFYE 2024) =
      Except.map (fun p => (p.1, p.2 + 1))
        (fetchGo [] [] false (Date.mk 2024 1 1) (Date.mk 2024 12 31)
          [HttpResponse.mk 200 "" [] none]
          (processResults [] [] false (Date.mk 2024 1 1) (Date.mk 2024 12 31)
            (initFYE 2024) [])) := by
  constructor
  · exact (c6_pagination [] [] false (Date.mk 2024 1 1) (Date.mk 2024 12 31)).1
      (HttpResponse.mk 200 "" [] none) [] (initFYE 2024) rfl (by decide)
  · exact (c6_pagination [] [] false (Date.mk 2024 1 1) (Date.mk 2024 12 31)).2.1
      (HttpResponse.mk 200 "" [] (some "c2")) [HttpResponse.mk 200 "" [] none]
      (initFYE 2024) rfl (by decide)

/-- February length under the leap-year rule. -/
theorem daysInMonth_feb (y : Int) :
    daysInMonth y 2 = if isLeapYear y then 29 else 28 := by
  simp [daysInMonth]

/-- Outside February the month length does not depend on the year. -/
theorem daysInMonth_of_ne_two (y y2 : Int) (m : Nat) (hm : m ≠ 2) :
    daysInMonth y m = daysInMonth y2 m := by
  simp [daysInMonth, hm]

/-- A valid date that is not a Feb 29 above a common year stays valid when
the year is decremented. -/
theorem prior_year_valid (d : Date) (hv : d.valid = true)
    (h : ¬(d.month = 2 ∧ d.day = 29 ∧ isLeapYear (d.year - 1) = false)) :
    (Date.mk (d.year - 1) d.month d.day).valid = true := by
  simp only [Date.valid, Bool.and_eq_true, decide_eq_true_eq] at hv ⊢
  obtain ⟨⟨⟨h1, h2⟩, h3⟩, h4⟩ := hv
  refine ⟨⟨⟨h1, h2⟩, h3⟩, ?_⟩
  by_cases hm : d.month = 2
  · rw [hm] at h4 ⊢
    rw [daysInMonth_feb] at h4 ⊢
    by_cases hl : isLeapYear (d.year - 1) = true
    · rw [if_pos hl]
      by_cases hly : isLeapYear d.year = true
      · rw [if_pos hly] at h4; omega
      · rw [if_neg hly] at h4; omega
    · have hl2 : isLeapYear (d.year - 1) = false := by
        cases hx : isLeapYear (d.year - 1) with
        | false => rfl
        | true => exact absurd hx hl
      have hd29 : d.day ≠ 29 := fun hd => h ⟨hm, hd, hl2⟩
      rw [hl2, if_neg (by simp)]
      by_cases hly : isLeapYear d.year = true
      · rw [if_pos hly] at h4; omega
      · rw [if_neg hly] at h4; omega
  · rw [daysInMonth_of_ne_two (d.year - 1) d.year d.month hm]
    exact h4

/-- Counterexample to claim C2 as stated: 2024-02-29 is a valid end date of
a current window, but `datetime(2023, 2, 29)` raises `ValueError`, so no
prior window is computed at all. -/
theorem c2_prior_window_counterexample :
    (Date.mk 2023 3 1).valid = true ∧ (Date.mk 2024 2 29).valid = true ∧
    lastFyWindow (Date.mk 2023 3 1) (Date.mk 2024 2 29) = none := by
  refine ⟨by decide, by decide, by decide⟩

/-- Claim C2 (amended): for every valid current window whose start and end
are not a Feb 29 sitting above a common year, the prior window is exactly
one year earlier with the identical month and day for both boundaries
(calendar subtraction across leap-year boundaries); a Feb 29 boundary whose
prior year is a common year instead raises `ValueError`. -/
theorem c2_prior_window_same_month_day (s e : Date)
    (hs : s.valid = true) (he : e.valid = true)
    (hs2 : ¬(s.month = 2 ∧ s.day = 29 ∧ isLeapYear (s.year - 1) = false))
    (he2 : ¬(e.month = 2 ∧ e.day = 29 ∧ isLeapYear (e.year - 1) = false)) :
    lastFyWindow s e =
      some (Date.mk (s.year - 1) s.month s.day,
        Date.mk (e.year - 1) e.month e.day) := by
  have h1 := prior_year_valid s hs hs2
  have h2 := prior_year_valid e he he2
  simp [lastFyWindow, lastFyDate, mkDatetime, h1, h2]

/-- Witness for C2 (amended): the spec's own example, current window
2024-03-01..2025-02-28 yielding prior window 2023-03-01..2024-02-28. -/
theorem c2_prior_window_same_month_day_witness :
    lastFyWindow (Date.mk 2024 3 1) (Date.mk 2025 2 28) =
      some (Date.mk 2023 3 1, Date.mk 2024 2 28) := by
  have h := c2_prior_window_same_month_day (Date.mk 2024 3 1) (Date.mk 2025 2 28)
    (by decide) (by decide) (by decide) (by decide)
  norm_num at h
  exact h

/-- The candidate loop skips non-existing paths and yields the empty
mapping when every candidate is missing. -/
theorem loadMappingGo_all_missing (fs : String → Option FileContent) :
    ∀ (paths : List String), (∀ q ∈ paths, fs q = none) →
      loadMappingGo fs paths = Except.ok [] := by
  intro paths
  induction paths with
  | nil => intro h; rfl
  | cons p rest ih =>
    intro h
    simp only [loadMappingGo, h p (List.mem_cons_self p rest)]
    exact ih (fun q hq => h q (List.mem_cons_of_mem p hq))

/-- The candidate loop returns the outcome of the first existing path. -/
theorem loadMappingGo_first_found (fs : String → Option FileContent)
    (c : FileContent) :
    ∀ (l1 : List String) (p : String) (l2 : List String),
      (∀ q ∈ l1, fs q = none) → fs p = some c →
      loadMappingGo fs (l1 ++ p :: l2) =
        (match c with
         | FileContent.mapping m => Except.ok m
         | FileContent.malformed => Except.error "JSONDecodeError") := by
  intro l1
  induction l1 with
  | nil =>
    intro p l2 h hp
    simp only [List.nil_append, loadMappingGo, hp]
    cases c with
    | mapping m2 => rfl
    | malformed => rfl
  | cons q rest ih =>
    intro p l2 h hp
    simp only [List.cons_append, loadMappingGo, h q (List.mem_cons_self q rest)]
    exact ih p l2 (fun x hx => h x (List.mem_cons_of_mem q hx)) hp

/-- Claim C9: the mapping loader tries the four candidate locations in
order (cwd, cwd/payroll, module dir, module dir/payroll); it parses the
first existing candidate; when none exists it returns the empty mapping
without raising; a malformed document at the first existing candidate is a
fatal error. -/
theorem c9_mapping_loader (fs : String → Option FileContent)
    (cwd moduleDir filename : String) (m : List (String × String))
    (l1 l2 : List String) (p : String) :
    (candidatePaths cwd moduleDir filename =
      [cwd ++ "/" ++ filename, cwd ++ "/payroll/" ++ filename,
       moduleDir ++ "/" ++ filename, moduleDir ++ "/payroll/" ++ filename]) ∧
    ((∀ q ∈ candidatePaths cwd moduleDir filename, fs q = none) →
      loadMappingFile fs cwd moduleDir filename = Except.ok []) ∧
    (candidatePaths cwd moduleDir filename = l1 ++ p :: l2 →
      (∀ q ∈ l1, fs q = none) → fs p = some (FileContent.mapping m) →
      loadMappingFile fs cwd moduleDir filename = Except.ok m) ∧
    (candidatePaths cwd moduleDir filename = l1 ++ p :: l2 →
      (∀ q ∈ l1, fs q = none) → fs p = some FileContent.malformed →
      loadMappingFile fs cwd moduleDir filename =
        Except.error "JSONDecodeError") := by
  refine ⟨rfl, ?_, ?_, ?_⟩
  · intro h
    exact loadMappingGo_all_missing fs _ h
  · intro hsplit h hp
    unfold loadMappingFile
    rw [hsplit]
    exact loadMappingGo_first_found fs (FileContent.mapping m) l1 p l2 h hp
  · intro hsplit h hp
    unfold loadMappingFile
    rw [hsplit]
    exact loadMappingGo_first_found fs FileContent.malformed l1 p l2 h hp

/-- Witness for C9 with a concrete file system: all-missing, a mapping at
the second candidate with the first missing, and a malformed document at
the first candidate. -/
theorem c9_mapping_loader_witness :
    loadMappingFile (fun _ => none) "c" "m" "f" = Except.ok [] ∧
    loadMappingFile
      (fun q => if q = "c/payroll/f"
        then some (FileContent.mapping [("REG", "Base")]) else none)
      "c" "m" "f" = Except.ok [("REG", "Base")] ∧
    loadMappingFile
      (fun q => if q = "c/f" then some FileContent.malformed else none)
      "c" "m" "f" = Except.error "JSONDecodeError" := by
  refine ⟨?_, ?_, ?_⟩
  · exact (c9_mapping_loader (fun _ => none) "c" "m" "f" [] [] [] "").2.1
      (by intro q hq; rfl)
  · exact (c9_mapping_loader
      (fun q => if q = "c/payroll/f"
        then some (FileContent.mapping [("REG", "Base")]) else none)
      "c" "m" "f" [("REG", "Base")] ["c/f"] ["m/f", "m/payroll/f"]
      "c/payroll/f").2.2.1 (by decide) (by decide) (by decide)
  · exact (c9_mapping_loader
      (fun q => if q = "c/f" then some FileContent.malformed else none)
      "c" "m" "f" [] [] ["c/payroll/f", "m/f", "m/payroll/f"]
      "c/f").2.2.2 (by decide) (by decide) (by decide)

/-- `processEarning` never touches the year label. -/
theorem processEarning_year (em cm : List (String × String))
    (st : FiscalYearEarnings) (e : Earning) :
    (processEarning em cm st e).year = st.year := by
  cases he : e.amount with
  | none => simp [processEarning, he]
  | some a => by_cases ha : a = 0 <;> simp [processEarning, he, ha]

/-- Folding a record's earnings list never touches the year label. -/
theorem foldl_processEarning_year (em cm : List (String × String))
    (es : List Earning) (st : FiscalYearEarnings) :
    (es.foldl (processEarning em cm) st).year = st.year :=
  @foldl_preserve FiscalYearEarnings Earning (fun s1 => s1.year = st.year)
    (processEarning em cm)
    (fun s1 b hs => by
      show (processEarning em cm s1 b).year = st.year
      rw [processEarning_year]
      exact hs) es st rfl

theorem processKeptRun_year (em cm : List (String × String))
    (st : FiscalYearEarnings) (run : PayrollRun) :
    (processKeptRun em cm st run).year = st.year := by
  cases hnp : run.netPay with
  | none => simp only [processKeptRun, hnp, foldl_processEarning_year]
  | some np => simp only [processKeptRun, hnp, foldl_processEarning_year]

theorem processRun_year (em cm : List (String × String)) (filt : Bool)
    (s e : Date) (st : FiscalYearEarnings) (run : PayrollRun) :
    (processRun em cm filt s e st run).year = st.year := by
  unfold processRun
  by_cases hk : keepRecord filt s e run
  · rw [if_pos hk, processKeptRun_year]
  · rw [if_neg hk]

theorem processResults_year (em cm : List (String × String)) (filt : Bool)
    (s e : Date) (st : FiscalYearEarnings) (runs : List PayrollRun) :
    (processResults em cm filt s e st runs).year = st.year := by
  unfold processResults
  exact @foldl_preserve FiscalYearEarnings PayrollRun
    (fun s1 => s1.year = st.year) (processRun em cm filt s e)
    (fun s1 b hs => by
      show (processRun em cm filt s e s1 b).year = st.year
      rw [processRun_year]
      exact hs) runs st rfl

/-- The pagination loop carries the year label through unchanged. -/
theorem fetchGo_ok_year (em cm : List (String × String)) (filt : Bool)
    (s e : Date) :
    ∀ (rs : List HttpResponse) (st stf : FiscalYearEarnings) (n : Nat),
      fetchGo em cm filt s e rs st = Except.ok (stf, n) → stf.year = st.year := by
  intro rs
  induction rs with
  | nil =>
    intro st stf n h
    simp only [fetchGo, Except.ok.injEq, Prod.mk.injEq] at h
    rw [← h.1]
  | cons r rest ih =>
    intro st stf n h
    simp only [fetchGo] at h
    by_cases hs : r.statusCode ≠ 200
    · rw [if_pos hs] at h
      exact absurd h (by simp)
    · rw [if_neg hs] at h
      by_cases ht : httpTruthy r.next
      · rw [if_pos ht] at h
        cases hrec : fetchGo em cm filt s e rest
            (processResults em cm filt s e st r.results) with
        | error err => rw [hrec] at h; exact absurd h (by simp)
        | ok v =>
          obtain ⟨st1, n1⟩ := v
          rw [hrec] at h
          simp only [Except.ok.injEq, Prod.mk.injEq] at h
          rw [← h.1, ih _ _ _ hrec, processResults_year]
      · rw [if_neg ht] at h
        simp only [Except.ok.injEq, Prod.mk.injEq] at h
        rw [← h.1, processResults_year]

/-- A successful prior-year boundary is the same month/day one year back. -/
theorem lastFyDate_some (d d2 : Date) (h : lastFyDate d = some d2) :
    d2 = Date.mk (d.year - 1) d.month d.day := by
  unfold lastFyDate mkDatetime at h
  by_cases hv : (Date.mk (d.year - 1) d.month d.day).valid = true
  · rw [if_pos hv] at h
    exact (Option.some_inj.mp h).symm
  · rw [if_neg hv] at h
    exact absurd h (by simp)

theorem lastFyWindow_some (s e ls le : Date)
    (h : lastFyWindow s e = some (ls, le)) :
    lastFyDate s = some ls ∧ lastFyDate e = some le := by
  unfold lastFyWindow at h
  cases h1 : lastFyDate s with
  | none => rw [h1] at h; simp at h
  | some a =>
    cases h2 : lastFyDate e with
    | none => rw [h1, h2] at h; simp at h
    | some b =>
      rw [h1, h2] at h
      simp only [Option.some.injEq, Prod.mk.injEq] at h
      exact ⟨by rw [h.1], by rw [h.2]⟩

/-- Claim C10: the year label of each returned `FiscalYearResult` is the
calendar year of that window's end date: `this_fy = this_fy_end.year` and
`last_fy = last_fy_end.year = this_fy_end.year - 1`. -/
theorem c10_year_label_is_end_year (em cm : List (String × String))
    (filt : Bool) (s e : Date) (rsT rsL : List HttpResponse)
    (res : SummaryResult)
    (h : summarizeEmployeePayrollRuns em cm filt s e rsT rsL = Except.ok res) :
    res.currentFy.year = e.year ∧ res.lastFy.year = e.year - 1 := by
  unfold summarizeEmployeePayrollRuns at h
  cases hw : lastFyWindow s e with
  | none =>
    rw [hw] at h
    exact absurd h (by simp)
  | some w =>
    obtain ⟨ls, le⟩ := w
    rw [hw] at h
    have hle : le = Date.mk (e.year - 1) e.month e.day :=
      lastFyDate_some e le (lastFyWindow_some s e ls le hw).2
    simp only [] at h
    cases hf1 : fetchPayrollRunsForPeriod em cm filt s e e.year rsT with
    | error err =>
      rw [hf1] at h
      exact absurd h (by simp)
    | ok v =>
      obtain ⟨thisData, n1⟩ := v
      rw [hf1] at h
      cases hf2 : fetchPayrollRunsForPeriod em cm filt ls le le.year rsL with
      | error err =>
        rw [hf2] at h
        exact absurd h (by simp)
      | ok v2 =>
        obtain ⟨lastData, n2⟩ := v2
        rw [hf2] at h
        simp only [Except.ok.injEq] at h
        have hthis : thisData.year = e.year :=
          fetchGo_ok_year em cm filt s e rsT (initFYE e.year) thisData n1 hf1
        have hlast : lastData.year = le.year :=
          fetchGo_ok_year em cm filt ls le rsL (initFYE le.year) lastData n2 hf2
        rw [← h]
        refine ⟨hthis, ?_⟩
        show lastData.year = e.year - 1
        rw [hlast, hle]

/-- Witness for C10 on the window 2016-07-01..2017-06-30 (one empty 200
page per period): the current label is 2017, the prior label 2016. -/
theorem c10_year_label_is_end_year_witness :
    c10Res.currentFy.year = (Date.mk 2017 6 30).year ∧
    c10Res.lastFy.year = (Date.mk 2017 6 30).year - 1 :=
  c10_year_label_is_end_year [] [] false (Date.mk 2016 7 1) (Date.mk 2017 6 30)
    [HttpResponse.mk 200 "" [] none] [HttpResponse.mk 200 "" [] none] c10Res
    (by with_unfolding_all rfl)
